import Mathlib

/-!
Shallow embedding of the atlas-source-jar-gen tool
(src/atlassiansourcegen/downloader.py and src/atlassiansourcegen/main.py).

The scraping, parsing and archive handling logic of downloader.py and the
build driver loop of main.py are modelled as pure Lean functions over
explicit data (HTML table rows, effect traces for filesystem and network
steps, exit codes for external build tool invocations). Machine specific
details that the code relies on are recorded next to each definition:
the path separator is modelled as the POSIX slash, Python str.strip and
str.lower are modelled on the ASCII strings that actually occur here.
-/

/-- Models Python str.strip: drop leading and trailing whitespace
(downloader.py lines 85, 97 apply it to version text and href values). -/
def pyStrip (s : String) : String :=
  String.mk (((s.data.dropWhile Char.isWhitespace).reverse.dropWhile Char.isWhitespace).reverse)

/-- Models Python str.lower on the ASCII strings handled by the tool
(archive type tags such as ZIP and TAR.GZ). -/
def pyLower (s : String) : String :=
  String.mk (s.data.map Char.toLower)

/-- Greedy match of a digit run, the regex fragment `(\d+)` or `(\d+)?`:
returns the digits consumed and the remaining input. -/
def spanDigits : List Char → List Char × List Char
  | [] => ([], [])
  | c :: cs =>
    if c.isDigit then (c :: (spanDigits cs).1, (spanDigits cs).2)
    else ([], c :: cs)

/-- Consume a literal character sequence from the front of the input;
none when the input does not start with that literal. -/
def dropLit : List Char → List Char → Option (List Char)
  | [], cs => some cs
  | _ :: _, [] => none
  | l :: ls, c :: cs => if c = l then dropLit ls cs else none

/-- Regex fragment `(\d+)\.`: a nonempty digit run followed by a dot.
Greedy matching is equivalent to backtracking here because a digit run
can only stop at a non digit, and the dot is not a digit. -/
def parseNumDot (cs : List Char) : Option (List Char × List Char) :=
  match spanDigits cs with
  | (ds, c :: r) => if ds = [] then none else if c = '.' then some (ds, r) else none
  | (_, []) => none

/-- Literal " Source (" of VERSION_EXTRACT_REGEX (downloader.py line 20). -/
def sourceOpen : List Char := " Source (".data

/-- Literal "ZIP" alternative of the type group. -/
def zipLit : List Char := "ZIP".data

/-- Literal "TAR.GZ" alternative of the type group. -/
def tarGzLit : List Char := "TAR.GZ".data

/-- Literal ")" closing the row text. -/
def closeParen : List Char := ")".data

/-- Literal " Archive)" closing the row text when the optional
" Archive" suffix is present. -/
def archiveClose : List Char := " Archive)".data

/-- Result of a successful VERSION_EXTRACT_REGEX match: the version group
and the type group. -/
structure VersionMatch where
  version : String
  archType : String
deriving DecidableEq, Repr

/-- Regex tail `(ZIP|(TAR\.GZ))( Archive)?\)$` applied after the literal
" Source (": returns the text of the type group on success. -/
def matchTypeTail (cs : List Char) : Option String :=
  match dropLit zipLit cs with
  | some rest =>
    if rest = closeParen ∨ rest = archiveClose then some (String.mk zipLit) else none
  | none =>
    match dropLit tarGzLit cs with
    | some rest =>
      if rest = closeParen ∨ rest = archiveClose then some (String.mk tarGzLit) else none
    | none => none

/-- Models VERSION_EXTRACT_REGEX (downloader.py lines 19 and 20):
`^(?P<version>(\d+)\.(\d+)\.(\d+)?) Source \((?P<type>(ZIP|(TAR\.GZ)))( Archive)?\)$`
applied with re.match to an already stripped string. Note the third digit
group is optional but the second dot is not: the version group is a digit
run, a dot, a digit run, a dot, then an optional digit run. -/
def matchVersionRegex (s : String) : Option VersionMatch :=
  match parseNumDot s.data with
  | none => none
  | some (maj, r1) =>
    match parseNumDot r1 with
    | none => none
    | some (mnr, r2) =>
      match spanDigits r2 with
      | (pat, r3) =>
        match dropLit sourceOpen r3 with
        | none => none
        | some r4 =>
          match matchTypeTail r4 with
          | none => none
          | some t => some ⟨String.mk (maj ++ '.' :: mnr ++ '.' :: pat), t⟩

/-- Models select_archive_type (downloader.py lines 32 to 45). The provided
type is an optional string; a string is lower cased, a value outside tar
and zip is discarded, a missing value defaults to tar, and the application
stash always resolves to zip. The function is total: no input raises. -/
def select_archive_type (app : String) (provided_type : Option String) : String :=
  let archive_type : Option String :=
    match provided_type with
    | some s => some (pyLower s)
    | none => none
  let archive_type : Option String :=
    match archive_type with
    | some t => if t = "tar" ∨ t = "zip" then some t else none
    | none => none
  let archive_type : String :=
    match archive_type with
    | some t => t
    | none => "tar"
  if app = "stash" then "zip" else archive_type

/-- Models get_archive_extension (downloader.py lines 48 and 49): a Python
dict lookup with .get, so unknown types yield none. -/
def get_archive_extension (archive_type : String) : Option String :=
  if pyLower archive_type = "tar" then some ("tar.gz")
  else if pyLower archive_type = "zip" then some ("zip")
  else none

/-- One anchor tag found inside a table cell. childNodes models the
BeautifulSoup value len(tag), the number of direct child nodes of the tag;
href models tag.get applied to the href attribute, none when absent. -/
structure Anchor where
  childNodes : Nat
  href : Option String
deriving DecidableEq, Repr

/-- One td cell of a listing row. childNodes models len(tag) for the cell,
text models tag.text (concatenated descendant text), anchors lists the
anchor descendants in document order, so that find applied to the cell
returns the head of the list when it is nonempty and None otherwise. -/
structure Td where
  childNodes : Nat
  text : String
  anchors : List Anchor
deriving DecidableEq, Repr

/-- One listing row (tr with class smallish): its td cells in order, as
returned by find_all in downloader.py line 81. -/
structure Row where
  tds : List Td
deriving DecidableEq, Repr

/-- Outcome of the body of the per row try block in get_source
(downloader.py lines 80 to 103) on one row. entry means the row reached
line 100 and contributed a mapping entry; skip means an
AtlassianSourceDownloadError was raised and caught by the except clause;
uncaught means a different exception escaped the try (IndexError from
columns applied at index 0 of an empty list, TypeError from len applied to
None when find returns no anchor, AttributeError from strip applied to
None when the anchor has no href attribute). -/
inductive RowOutcome where
  | entry (version download_path : String)
  | skip
  | uncaught
deriving DecidableEq, Repr

/-- Models one iteration of the version row loop of get_source
(downloader.py lines 78 to 103), with archive_extension the resolved
extension string computed at line 77. -/
def processRow (archive_extension : String) (row : Row) : RowOutcome :=
  match row.tds.head? with
  | none => RowOutcome.uncaught
  | some version_field =>
    if version_field.childNodes ≠ 1 then RowOutcome.skip
    else
      let version_text := pyStrip version_field.text
      if version_text.length = 0 then RowOutcome.skip
      else
        match matchVersionRegex version_text with
        | none => RowOutcome.skip
        | some m =>
          if pyLower m.archType ≠ archive_extension then RowOutcome.skip
          else
            match row.tds.getLast? with
            | none => RowOutcome.uncaught
            | some last_field =>
              match last_field.anchors.head? with
              | none => RowOutcome.uncaught
              | some link =>
                if link.childNodes ≠ 1 then RowOutcome.skip
                else
                  match link.href with
                  | none => RowOutcome.uncaught
                  | some h =>
                    let download_path := pyStrip h
                    if download_path.length = 0 then RowOutcome.skip
                    else RowOutcome.entry m.version download_path

/-- Association list model of the Python dict version_download_map: keys in
insertion order, assignment replaces the value of an existing key in
place. -/
def dictInsert : List (String × String) → String → String → List (String × String)
  | [], key, val => [(key, val)]
  | (k, v) :: rest, key, val =>
    if k = key then (key, val) :: rest else (k, v) :: dictInsert rest key val

/-- Lookup in the association list model of a Python dict. -/
def dictFind : List (String × String) → String → Option String
  | [], _ => none
  | (k, v) :: rest, key => if k = key then some v else dictFind rest key

/-- Keys of the dict model, in order. -/
def dictKeys (m : List (String × String)) : List String := m.map Prod.fst

/-- Models the whole version row loop of get_source (downloader.py lines 78
to 103) starting from accumulator acc: rows that yield an entry update the
dict, rows that raise AtlassianSourceDownloadError are skipped, and a row
that raises any other exception aborts the loop (and get_source), which is
modelled as none. -/
def scanVersionRows (ext : String) : List Row → List (String × String) → Option (List (String × String))
  | [], acc => some acc
  | r :: rs, acc =>
    match processRow ext r with
    | RowOutcome.entry v p => scanVersionRows ext rs (dictInsert acc v p)
    | RowOutcome.skip => scanVersionRows ext rs acc
    | RowOutcome.uncaught => none

/-- Portal base URL MY_ATLASSIAN (downloader.py line 15). -/
def MY_ATLASSIAN : String := "https://my.atlassian.com"

/-- Target extraction directory version_dir_path (downloader.py line 115). -/
def version_dir_path (base_unpack_dir app version : String) : String :=
  base_unpack_dir ++ "/" ++ app ++ "/" ++ version

/-- Cached archive path source_archive_name (downloader.py line 116). -/
def source_archive_name (base_unpack_dir app version ext : String) : String :=
  base_unpack_dir ++ "/" ++ app ++ "_" ++ version ++ "." ++ ext

/-- First path segment of an archive member name: the Python expression
d.split(os.path.sep)[0] at downloader.py line 126, with the POSIX
separator. -/
def topSegment (p : String) : String :=
  String.mk (p.data.takeWhile (fun c => c ≠ '/'))

/-- Distinct elements of a list, modelling list applied to set at
downloader.py line 126. Only the length of the result and, when the length
is one, its unique element are ever used, so the unspecified Python set
order does not matter. -/
def distinctList : List String → List String
  | [] => []
  | x :: xs =>
    if (distinctList xs).contains x then distinctList xs else x :: distinctList xs

/-- Filesystem and network effects performed by get_source after the
version map is built (downloader.py lines 104 to 144), in program order. -/
inductive Effect where
  | makedirsBase (path : String)
  | unlinkArchive (path : String)
  | download (url : String)
  | writeArchive (path : String)
  | makedirsTarget (path : String)
  | mkdtempDir
  | extractAll
  | rmtreeTarget (path : String)
  | moveDir (dst : String)
  | rmtreeTempDir
  | unlinkArchiveKeep (path : String)
deriving DecidableEq, Repr

/-- Result of the post parse part of get_source. versionNotFound and
unexpectedContents are the two AtlassianSourceDownloadError raises at
lines 106 and 128; ioError stands for a propagated exception of extractall
or move inside the try block. -/
inductive GSResult where
  | ok (path : String)
  | versionNotFound
  | unexpectedContents
  | ioError
deriving DecidableEq, Repr

/-- Effects of downloader.py lines 117 to 123: the conditional unlink of a
cached archive when clean is set, and the conditional download and write
when no cached archive remains. After the conditional unlink a cached file
exists exactly when it existed before and clean is not set. -/
def fetchEffects (archName url : String) (clean archiveExists : Bool) : List Effect :=
  (if clean ∧ archiveExists then [Effect.unlinkArchive archName] else []) ++
    (if archiveExists ∧ ¬clean then [] else [Effect.download url, Effect.writeArchive archName])

/-- Models downloader.py lines 124 to 144: open the archive (members is its
namelist), create the target directory, check the distinct top level
segments, and extract, move and clean up inside the try finally block.
extractOk and moveOk say whether extractall and the rmtree plus move steps
raise; the finally clause appends the removal of the temporary directory
on every path that created it. The keep flag controls the final unlink at
lines 141 and 142, reached only on success. -/
def extractPhase (dirPath archName : String) (keep targetExists extractOk moveOk : Bool)
    (members : List String) : GSResult × List Effect :=
  if (distinctList (members.map topSegment)).length ≠ 1 then
    (GSResult.unexpectedContents, [Effect.makedirsTarget dirPath])
  else if extractOk = false then
    (GSResult.ioError, [Effect.makedirsTarget dirPath, Effect.mkdtempDir, Effect.rmtreeTempDir])
  else if moveOk = false then
    (GSResult.ioError,
      [Effect.makedirsTarget dirPath, Effect.mkdtempDir, Effect.extractAll] ++
        (if targetExists then [Effect.rmtreeTarget dirPath] else []) ++ [Effect.rmtreeTempDir])
  else
    (GSResult.ok dirPath,
      [Effect.makedirsTarget dirPath, Effect.mkdtempDir, Effect.extractAll] ++
        (if targetExists then [Effect.rmtreeTarget dirPath] else []) ++
        [Effect.moveDir dirPath, Effect.rmtreeTempDir] ++
        (if keep then [] else [Effect.unlinkArchiveKeep archName]))

/-- Models get_source from line 104 on, after the version map vmap has been
built: the version lookup at lines 104 to 107 happens before every
filesystem or network effect, then the base directory is created, the
cached archive possibly removed and the archive possibly downloaded, and
the extract phase runs. Returns the result together with the full effect
trace in program order. base_unpack_dir is taken as already resolved
(lines 109 to 112), archiveExists models isfile on the archive path at
entry, targetExists models isdir on the target path at line 136. -/
def getSourcePost (app ver baseDir ext : String) (vmap : List (String × String))
    (clean keep archiveExists targetExists extractOk moveOk : Bool)
    (members : List String) : GSResult × List Effect :=
  match dictFind vmap ver with
  | none => (GSResult.versionNotFound, [])
  | some download_path =>
    ((extractPhase (version_dir_path baseDir app ver) (source_archive_name baseDir app ver ext)
        keep targetExists extractOk moveOk members).1,
      Effect.makedirsBase baseDir ::
        fetchEffects (source_archive_name baseDir app ver ext) (MY_ATLASSIAN ++ download_path)
          clean archiveExists ++
        (extractPhase (version_dir_path baseDir app ver) (source_archive_name baseDir app ver ext)
          keep targetExists extractOk moveOk members).2)

/-- Directory name test d.startswith applied with this constant at
main.py line 111. -/
def mavenPre : String := "maven"

/-- Models Python str.startswith. -/
def pyStartsWith (s pre : String) : Bool :=
  pre.data.isPrefixOf s.data

/-- Candidate build tool directories: immediate children of the source
directory whose name starts with maven, joined to the source directory
path (main.py line 111, with the POSIX separator). -/
def maven_dirs (src_dir : String) (entries : List String) : List String :=
  (entries.filter (fun d => pyStartsWith d mavenPre)).map (fun d => src_dir ++ "/" ++ d)

/-- Lexicographic comparison of character lists by code point, the order
Python sorted uses on strings. -/
def listLe : List Char → List Char → Bool
  | [], _ => true
  | _ :: _, [] => false
  | a :: as, b :: bs =>
    if a.toNat < b.toNat then true
    else if b.toNat < a.toNat then false
    else listLe as bs

/-- String order used to model Python sorted on path strings. -/
def pyLe (a b : String) : Prop := listLe a.data b.data = true

instance : DecidableRel pyLe :=
  fun a b => inferInstanceAs (Decidable (listLe a.data b.data = true))

/-- Iteration order of the build loop: reversed sorted maven_dirs
(main.py line 116), that is descending lexicographic order. The sort is
modelled with insertion sort, which agrees with Python sorted for the
total order pyLe. -/
def mavenCandidates (src_dir : String) (entries : List String) : List String :=
  (List.insertionSort pyLe (maven_dirs src_dir entries)).reverse

/-- Outcome data of one candidate attempt of the build loop body
(main.py lines 117 to 141). raisesBefore models an exception thrown before
the exit code checks (for example listdir on an empty candidate directory,
or the build invocation itself throwing); buildExit and deployExit are the
exit codes of the two external invocations. -/
structure BuildAttempt where
  raisesBefore : Bool
  buildExit : Int
  deployExit : Int
deriving DecidableEq, Repr

/-- Models whether one iteration of the build loop reaches the line
build_success equals True (main.py line 138): no early exception, build
exit code zero, and, unless no_deploy is set, deploy exit code zero. Any
failure raises inside the try and is caught at line 140, so the loop
continues. -/
def attemptSucceeds (no_deploy : Bool) (a : BuildAttempt) : Bool :=
  if a.raisesBefore then false
  else if a.buildExit ≠ 0 then false
  else if no_deploy then true
  else if a.deployExit ≠ 0 then false
  else true

/-- Models the for loop of main.py lines 116 to 141 over an ordered
candidate list: returns the candidates actually attempted, in order, and
the final value of build_success. A successful attempt breaks out of the
loop; a failed attempt falls through to the next candidate. -/
def driveBuilds (outcome : String → BuildAttempt) (no_deploy : Bool) : List String → List String × Bool
  | [] => ([], false)
  | d :: rest =>
    if attemptSucceeds no_deploy (outcome d) then ([d], true)
    else (d :: (driveBuilds outcome no_deploy rest).1, (driveBuilds outcome no_deploy rest).2)

/-- Final outcome of run after the loop (main.py lines 145 to 147):
RuntimeError when build_success is still false, normal completion
otherwise. -/
inductive RunResult where
  | complete
  | fatal
deriving DecidableEq, Repr

/-- Models the build phase of run (main.py lines 111 to 147): iterate the
candidates in descending order and fail fatally exactly when no candidate
attempt succeeded. Returns the run outcome and the attempted candidates. -/
def runBuildPhase (outcome : String → BuildAttempt) (no_deploy : Bool)
    (src_dir : String) (entries : List String) : RunResult × List String :=
  (if (driveBuilds outcome no_deploy (mavenCandidates src_dir entries)).2 then RunResult.complete
    else RunResult.fatal,
   (driveBuilds outcome no_deploy (mavenCandidates src_dir entries)).1)

/-- Concrete fixture strings and rows used by the closed witness and
counterexample statements below. -/
def zipS : String := "zip"

/-- Extension fixture for the tar resolved type. -/
def tarGzS : String := "tar.gz"

/-- Source directory fixture. -/
def srcS : String := "src"

/-- Application fixture. -/
def appJira : String := "jira"

/-- Version fixture present in vmap1. -/
def ver621 : String := "6.2.1"

/-- Version fixture absent from vmap1. -/
def ver999 : String := "9.9.9"

/-- Base unpack directory fixture. -/
def baseDirS : String := "base"

/-- Download path fixture. -/
def dlPath : String := "/dl/x"

/-- Version map fixture with one entry. -/
def vmap1 : List (String × String) := [("6.2.1", "/dl/x")]

/-- Archive member fixture with a single top level directory. -/
def membersOneTop : List String := ["app-src/a", "app-src/b"]

/-- Archive member fixture with two distinct top level directories. -/
def membersTwoTops : List String := ["app-src/a", "other/b"]

/-- Row fixture whose last cell holds no anchor at all: find returns None
and len applied to None raises TypeError, which the row loop does not
catch. -/
def noLinkRow : Row := ⟨[⟨1, "6.2.1 Source (ZIP)", []⟩]⟩

/-- Valid zip row fixture. -/
def okZipRow : Row := ⟨[⟨1, "6.3.1 Source (ZIP)", [⟨1, some ("/download/source/631")⟩]⟩]⟩

/-- Zip row fixture, skipped when the resolved extension is tar.gz. -/
def mismatchRow : Row := ⟨[⟨1, "6.4.1 Source (ZIP)", [⟨1, some ("/download/source/641")⟩]⟩]⟩

/-- Row fixture whose last cell holds exactly one anchor with a non empty
href, but the anchor tag has two direct child nodes, for example bold
markup followed by text. -/
def styledAnchorRow : Row :=
  ⟨[⟨1, "6.2.1 Source (ZIP)", []⟩, ⟨3, "", [⟨2, some ("/download/source/12345")⟩]⟩]⟩

/-- Valid tar row fixture. -/
def tarRow : Row := ⟨[⟨1, "6.2.1 Source (TAR.GZ Archive)", [⟨1, some ("/download/source/22")⟩]⟩]⟩

/-- Version text with a two component version and no trailing dot. -/
def twoCompText : String := "6.2 Source (ZIP)"

/-- Row fixture carrying twoCompText and a perfectly good download link. -/
def twoCompRow : Row := ⟨[⟨1, "6.2 Source (ZIP)", [⟨1, some ("/download/source/62")⟩]⟩]⟩

/-- Character tail fixture for the version regex lemma. -/
def tailZip : List Char := "Source (ZIP)".data

/-- Directory entries fixture for the build loop. -/
def entriesW : List String := ["maven1", "maven2"]

/-- Attempt outcomes where the newest candidate builds fine but fails to
deploy, and the older candidate builds and deploys fine. -/
def deploy1FailOutcome : String → BuildAttempt :=
  fun d => if d = "src/maven2" then ⟨false, 0, 1⟩ else ⟨false, 0, 0⟩

/-- Attempt outcomes where every candidate builds fine and fails to
deploy. -/
def deployAllFailOutcome : String → BuildAttempt := fun _ => ⟨false, 0, 1⟩

/-- Attempt outcomes where every candidate fails to build. -/
def buildAllFailOutcome : String → BuildAttempt := fun _ => ⟨false, 1, 0⟩

theorem dictFind_dictInsert_self (m : List (String × String)) (k v : String) :
    dictFind (dictInsert m k v) k = some v := by
  induction m with
  | nil => simp [dictInsert, dictFind]
  | cons hd tl ih =>
    obtain ⟨k0, v0⟩ := hd
    by_cases h : k0 = k
    · simp [dictInsert, dictFind, h]
    · simp [dictInsert, dictFind, h, ih]

theorem dictFind_dictInsert_ne (m : List (String × String)) (k v key : String)
    (h : k ≠ key) : dictFind (dictInsert m k v) key = dictFind m key := by
  induction m with
  | nil => simp [dictInsert, dictFind, h]
  | cons hd tl ih =>
    obtain ⟨k0, v0⟩ := hd
    by_cases h0 : k0 = k
    · subst h0
      simp [dictInsert, dictFind, h]
    · simp [dictInsert, dictFind, h0, ih]

theorem mem_dictKeys_dictInsert (m : List (String × String)) (k v x : String) :
    x ∈ dictKeys (dictInsert m k v) ↔ x = k ∨ x ∈ dictKeys m := by
  induction m with
  | nil => simp [dictInsert, dictKeys]
  | cons hd tl ih =>
    obtain ⟨k0, v0⟩ := hd
    by_cases h0 : k0 = k
    · subst h0
      have e : dictInsert ((k0, v0) :: tl) k0 v = (k0, v) :: tl := by simp [dictInsert]
      rw [e, show dictKeys ((k0, v) :: tl) = k0 :: dictKeys tl from rfl,
        show dictKeys ((k0, v0) :: tl) = k0 :: dictKeys tl from rfl]
      simp only [List.mem_cons]
      tauto
    · simp only [dictInsert, if_neg h0]
      rw [show dictKeys ((k0, v0) :: dictInsert tl k v) = k0 :: dictKeys (dictInsert tl k v) from rfl,
        show dictKeys ((k0, v0) :: tl) = k0 :: dictKeys tl from rfl]
      simp only [List.mem_cons, ih]
      tauto

theorem nodup_dictKeys_dictInsert (m : List (String × String)) (k v : String)
    (h : (dictKeys m).Nodup) : (dictKeys (dictInsert m k v)).Nodup := by
  induction m with
  | nil => simp [dictInsert, dictKeys]
  | cons hd tl ih =>
    obtain ⟨k0, v0⟩ := hd
    rw [show dictKeys ((k0, v0) :: tl) = k0 :: dictKeys tl from rfl, List.nodup_cons] at h
    by_cases h0 : k0 = k
    · subst h0
      have e : dictInsert ((k0, v0) :: tl) k0 v = (k0, v) :: tl := by simp [dictInsert]
      rw [e, show dictKeys ((k0, v) :: tl) = k0 :: dictKeys tl from rfl, List.nodup_cons]
      exact h
    · simp only [dictInsert, if_neg h0]
      rw [show dictKeys ((k0, v0) :: dictInsert tl k v) = k0 :: dictKeys (dictInsert tl k v) from rfl,
        List.nodup_cons]
      refine ⟨?_, ih h.2⟩
      intro hx
      rcases (mem_dictKeys_dictInsert tl k v k0).mp hx with h1 | h1
      · exact h0 h1
      · exact h.1 h1

theorem scan_append (ext : String) (xs ys : List Row) (acc m : List (String × String))
    (h : scanVersionRows ext xs acc = some m) :
    scanVersionRows ext (xs ++ ys) acc = scanVersionRows ext ys m := by
  induction xs generalizing acc with
  | nil =>
    simp [scanVersionRows] at h
    subst h
    rfl
  | cons r rs ih =>
    cases hr : processRow ext r with
    | entry v p =>
      simp only [scanVersionRows, hr, List.cons_append] at h ⊢
      exact ih _ h
    | skip =>
      simp only [scanVersionRows, hr, List.cons_append] at h ⊢
      exact ih _ h
    | uncaught =>
      simp [scanVersionRows, hr] at h

theorem scan_isSome (ext : String) (rows : List Row) (acc : List (String × String))
    (h : ∀ r ∈ rows, processRow ext r ≠ RowOutcome.uncaught) :
    ∃ m, scanVersionRows ext rows acc = some m := by
  induction rows generalizing acc with
  | nil => exact ⟨acc, rfl⟩
  | cons r rs ih =>
    cases hr : processRow ext r with
    | entry v p =>
      simpa [scanVersionRows, hr] using ih (dictInsert acc v p) (fun x hx => h x (by simp [hx]))
    | skip =>
      simpa [scanVersionRows, hr] using ih acc (fun x hx => h x (by simp [hx]))
    | uncaught =>
      exact absurd hr (h r (by simp))

theorem scan_nodup (ext : String) (rows : List Row) (acc m : List (String × String))
    (h : scanVersionRows ext rows acc = some m) (hn : (dictKeys acc).Nodup) :
    (dictKeys m).Nodup := by
  induction rows generalizing acc with
  | nil =>
    simp [scanVersionRows] at h
    subst h
    exact hn
  | cons r rs ih =>
    cases hr : processRow ext r with
    | entry v p =>
      simp only [scanVersionRows, hr] at h
      exact ih _ h (nodup_dictKeys_dictInsert acc v p hn)
    | skip =>
      simp only [scanVersionRows, hr] at h
      exact ih _ h hn
    | uncaught =>
      simp [scanVersionRows, hr] at h

theorem scan_preserve_key (ext v : String) (rows : List Row) (acc : List (String × String))
    (h1 : ∀ r ∈ rows, processRow ext r ≠ RowOutcome.uncaught)
    (h2 : ∀ r ∈ rows, ∀ q, processRow ext r ≠ RowOutcome.entry v q) :
    ∃ m, scanVersionRows ext rows acc = some m ∧ dictFind m v = dictFind acc v := by
  induction rows generalizing acc with
  | nil => exact ⟨acc, rfl, rfl⟩
  | cons r rs ih =>
    cases hr : processRow ext r with
    | entry v0 p =>
      have hv0 : v0 ≠ v := by
        intro he
        exact h2 r (by simp) p (he ▸ hr)
      obtain ⟨m, hm, hfind⟩ := ih (dictInsert acc v0 p)
        (fun x hx => h1 x (by simp [hx])) (fun x hx => h2 x (by simp [hx]))
      refine ⟨m, by simpa [scanVersionRows, hr] using hm, ?_⟩
      rw [hfind]
      exact dictFind_dictInsert_ne acc v0 p v hv0
    | skip =>
      obtain ⟨m, hm, hfind⟩ := ih acc (fun x hx => h1 x (by simp [hx])) (fun x hx => h2 x (by simp [hx]))
      exact ⟨m, by simpa [scanVersionRows, hr] using hm, hfind⟩
    | uncaught =>
      exact absurd hr (h1 r (by simp))

theorem spanDigits_exact (a : List Char) (c : Char) (rest : List Char)
    (ha : ∀ x ∈ a, x.isDigit = true) (hc : c.isDigit = false) :
    spanDigits (a ++ c :: rest) = (a, c :: rest) := by
  induction a with
  | nil => simp [spanDigits, hc]
  | cons x xs ih =>
    have hx : x.isDigit = true := ha x (by simp)
    have ih2 := ih (fun y hy => ha y (by simp [hy]))
    simp [spanDigits, hx, ih2]

theorem parseNumDot_dot (a rest : List Char)
    (ha : ∀ x ∈ a, x.isDigit = true) (hne : a ≠ []) :
    parseNumDot (a ++ '.' :: rest) = some (a, rest) := by
  unfold parseNumDot
  rw [spanDigits_exact a '.' rest ha (by decide)]
  simp [hne]

theorem parseNumDot_nodot (a : List Char) (c : Char) (rest : List Char)
    (ha : ∀ x ∈ a, x.isDigit = true) (hcd : c.isDigit = false) (hcne : c ≠ '.') :
    parseNumDot (a ++ c :: rest) = none := by
  unfold parseNumDot
  rw [spanDigits_exact a c rest ha hcd]
  simp [hcne]

theorem download_not_mem_extractPhase (dirPath archName : String)
    (keep targetExists extractOk moveOk : Bool) (members : List String) (u : String) :
    Effect.download u ∉ (extractPhase dirPath archName keep targetExists extractOk moveOk members).2 := by
  unfold extractPhase
  split
  · simp
  · split
    · simp
    · split
      · cases targetExists <;> simp
      · cases targetExists <;> cases keep <;> simp

theorem mkdtemp_iff_rmtree_extractPhase (dirPath archName : String)
    (keep targetExists extractOk moveOk : Bool) (members : List String) :
    (Effect.mkdtempDir ∈ (extractPhase dirPath archName keep targetExists extractOk moveOk members).2 ↔
      Effect.rmtreeTempDir ∈ (extractPhase dirPath archName keep targetExists extractOk moveOk members).2) := by
  unfold extractPhase
  split
  · simp
  · split
    · simp
    · split
      · cases targetExists <;> simp
      · cases targetExists <;> cases keep <;> simp

theorem extractPhase_structural (dirPath archName : String)
    (keep targetExists extractOk moveOk : Bool) (members : List String)
    (h : (distinctList (members.map topSegment)).length ≠ 1) :
    extractPhase dirPath archName keep targetExists extractOk moveOk members =
      (GSResult.unexpectedContents, [Effect.makedirsTarget dirPath]) := by
  unfold extractPhase
  rw [if_pos h]

theorem extractPhase_res_of_oneTop (dirPath archName : String)
    (keep targetExists extractOk moveOk : Bool) (members : List String)
    (h : (distinctList (members.map topSegment)).length = 1) :
    (extractPhase dirPath archName keep targetExists extractOk moveOk members).1 ≠
      GSResult.unexpectedContents := by
  unfold extractPhase
  rw [if_neg (by simp [h])]
  split
  · simp
  · split
    · simp
    · simp

theorem mem_fetchEffects (archName url : String) (clean archiveExists : Bool) (e : Effect)
    (h : e ∈ fetchEffects archName url clean archiveExists) :
    e = Effect.unlinkArchive archName ∨ e = Effect.download url ∨ e = Effect.writeArchive archName := by
  unfold fetchEffects at h
  cases clean <;> cases archiveExists <;> simp_all

theorem listLe_total (a b : List Char) : listLe a b = true ∨ listLe b a = true := by
  induction a generalizing b with
  | nil => left; rfl
  | cons x xs ih =>
    cases b with
    | nil => right; rfl
    | cons y ys =>
      rcases Nat.lt_trichotomy x.toNat y.toNat with h | h | h
      · left
        simp [listLe, h]
      · rcases ih ys with h2 | h2
        · left
          simp [listLe, h, h2]
        · right
          simp [listLe, h.symm, h2]
      · right
        simp [listLe, h]

theorem listLe_trans (a b c : List Char) (h1 : listLe a b = true) (h2 : listLe b c = true) :
    listLe a c = true := by
  induction a generalizing b c with
  | nil => rfl
  | cons x xs ih =>
    cases b with
    | nil => simp [listLe] at h1
    | cons y ys =>
      cases c with
      | nil => simp [listLe] at h2
      | cons z zs =>
        simp only [listLe] at h1 h2 ⊢
        rcases Nat.lt_trichotomy x.toNat y.toNat with hxy | hxy | hxy
        · rcases Nat.lt_trichotomy y.toNat z.toNat with hyz | hyz | hyz
          · simp [Nat.lt_trans hxy hyz]
          · simp [hyz ▸ hxy]
          · simp [hyz, Nat.lt_asymm hyz] at h2
        · rcases Nat.lt_trichotomy y.toNat z.toNat with hyz | hyz | hyz
          · simp [hxy ▸ hyz]
          · have hxz : x.toNat = z.toNat := hxy.trans hyz
            simp only [hxy, hyz, Nat.lt_irrefl, if_false] at h1 h2
            simp only [hxz, Nat.lt_irrefl, if_false]
            exact ih ys zs h1 h2
          · simp [hyz, Nat.lt_asymm hyz] at h2
        · simp [hxy, Nat.lt_asymm hxy] at h1

instance : IsTotal String pyLe :=
  ⟨fun a b => listLe_total a.data b.data⟩

instance : IsTrans String pyLe :=
  ⟨fun a b c => listLe_trans a.data b.data c.data⟩

theorem driveBuilds_eq (outcome : String → BuildAttempt) (nd : Bool) (l : List String) :
    driveBuilds outcome nd l =
      (l.takeWhile (fun d => !attemptSucceeds nd (outcome d)) ++
        (l.dropWhile (fun d => !attemptSucceeds nd (outcome d))).take 1,
       l.any (fun d => attemptSucceeds nd (outcome d))) := by
  induction l with
  | nil => rfl
  | cons d rest ih =>
    cases h : attemptSucceeds nd (outcome d) with
    | true =>
      simp [driveBuilds, h, List.takeWhile_cons, List.dropWhile_cons]
    | false =>
      simp [driveBuilds, h, List.takeWhile_cons, List.dropWhile_cons, ih]

theorem not_mem_fetchEffects_of (archName url : String) (clean archiveExists : Bool) (e : Effect)
    (h1 : e ≠ Effect.unlinkArchive archName) (h2 : e ≠ Effect.download url)
    (h3 : e ≠ Effect.writeArchive archName) :
    e ∉ fetchEffects archName url clean archiveExists := by
  intro hm
  rcases mem_fetchEffects _ _ _ _ _ hm with h | h | h
  exacts [h1 h, h2 h, h3 h]

/-- C6: select_archive_type lower cases a provided string value, discards
it unless the result is tar or zip, defaults to tar when no valid value
remains, always returns zip for the application stash whatever was
provided, and is a total function, so an invalid provided value degrades
to the default instead of raising. -/
theorem selectArchiveTypeSpec (app : String) (t : Option String) :
    (app = "stash" → select_archive_type app t = "zip") ∧
    (app ≠ "stash" → t = none → select_archive_type app t = "tar") ∧
    (app ≠ "stash" → ∀ s, t = some s → (pyLower s = "tar" ∨ pyLower s = "zip") →
      select_archive_type app t = pyLower s) ∧
    (app ≠ "stash" → ∀ s, t = some s → pyLower s ≠ "tar" → pyLower s ≠ "zip" →
      select_archive_type app t = "tar") := by
  refine ⟨?_, ?_, ?_, ?_⟩
  · intro h
    simp [select_archive_type, h]
  · intro h ht
    subst ht
    simp [select_archive_type, h]
  · intro h s ht hv
    subst ht
    rcases hv with hv | hv <;> simp [select_archive_type, h, hv]
  · intro h s ht h1 h2
    subst ht
    simp [select_archive_type, h, h1, h2]

/-- Witness for selectArchiveTypeSpec at concrete inputs: the stash
override, the missing value default, a valid value, and an invalid value. -/
theorem selectArchiveTypeSpec_witness :
    select_archive_type ("stash") (some ("TAR")) = "zip" ∧
    select_archive_type ("jira") none = "tar" ∧
    select_archive_type ("jira") (some ("ZIP")) = "zip" ∧
    select_archive_type ("jira") (some ("bogus")) = "tar" := by
  refine ⟨?_, ?_, ?_, ?_⟩
  · exact (selectArchiveTypeSpec ("stash") (some ("TAR"))).1 rfl
  · exact (selectArchiveTypeSpec ("jira") none).2.1 (by decide) rfl
  · exact ((selectArchiveTypeSpec ("jira") (some ("ZIP"))).2.2.1 (by decide) ("ZIP") rfl
      (Or.inr (by decide))).trans (by decide)
  · exact (selectArchiveTypeSpec ("jira") (some ("bogus"))).2.2.2 (by decide) ("bogus") rfl
      (by decide) (by decide)

theorem getSourcePost_notFound (app ver baseDir ext : String) (vmap : List (String × String))
    (clean keep archiveExists targetExists extractOk moveOk : Bool) (members : List String)
    (h : dictFind vmap ver = none) :
    getSourcePost app ver baseDir ext vmap clean keep archiveExists targetExists extractOk
        moveOk members = (GSResult.versionNotFound, []) := by
  unfold getSourcePost
  rw [h]

/-- C3: when the requested version is not a key of the mapping built from
the listing rows, get_source raises the not found
AtlassianSourceDownloadError before doing anything else: the effect trace
is empty, so in particular no download request is made and no archive file
is written. -/
theorem getSourceVersionNotFound (app ver baseDir ext : String) (vmap : List (String × String))
    (clean keep archiveExists targetExists extractOk moveOk : Bool) (members : List String)
    (h : dictFind vmap ver = none) :
    getSourcePost app ver baseDir ext vmap clean keep archiveExists targetExists extractOk
        moveOk members = (GSResult.versionNotFound, []) :=
  getSourcePost_notFound app ver baseDir ext vmap clean keep archiveExists targetExists
    extractOk moveOk members h

/-- Witness for getSourceVersionNotFound: version 9.9.9 is not a key of
the one entry map. -/
theorem getSourceVersionNotFound_witness :
    getSourcePost appJira ver999 baseDirS tarGzS vmap1 true true true false true true
      membersOneTop = (GSResult.versionNotFound, []) :=
  getSourceVersionNotFound appJira ver999 baseDirS tarGzS vmap1 true true true false true true
    membersOneTop (by decide)

theorem getSourcePost_found (app ver baseDir ext dl : String) (vmap : List (String × String))
    (clean keep archiveExists targetExists extractOk moveOk : Bool) (members : List String)
    (h : dictFind vmap ver = some dl) :
    getSourcePost app ver baseDir ext vmap clean keep archiveExists targetExists extractOk moveOk
        members =
      ((extractPhase (version_dir_path baseDir app ver) (source_archive_name baseDir app ver ext)
          keep targetExists extractOk moveOk members).1,
        Effect.makedirsBase baseDir ::
          fetchEffects (source_archive_name baseDir app ver ext) (MY_ATLASSIAN ++ dl) clean
            archiveExists ++
          (extractPhase (version_dir_path baseDir app ver)
            (source_archive_name baseDir app ver ext) keep targetExists extractOk moveOk
            members).2) := by
  unfold getSourcePost
  rw [h]

/-- C5: with the requested version resolvable and a cached archive file on
disk, clean true first deletes the cached file and then downloads a fresh
copy (the trace begins with the base directory creation, the unlink, the
download request and the archive write, in that order), while clean false
performs no download request at all. -/
theorem getSourceCleanPolicy (app ver baseDir ext dl : String) (vmap : List (String × String))
    (clean keep targetExists extractOk moveOk : Bool) (members : List String)
    (h : dictFind vmap ver = some dl) :
    (clean = true → ∃ rest,
      (getSourcePost app ver baseDir ext vmap clean keep true targetExists extractOk moveOk
          members).2 =
        Effect.makedirsBase baseDir ::
          Effect.unlinkArchive (source_archive_name baseDir app ver ext) ::
          Effect.download (MY_ATLASSIAN ++ dl) ::
          Effect.writeArchive (source_archive_name baseDir app ver ext) :: rest) ∧
    (clean = false → ∀ u,
      Effect.download u ∉
        (getSourcePost app ver baseDir ext vmap clean keep true targetExists extractOk moveOk
          members).2) := by
  constructor
  · intro hc
    subst hc
    rw [getSourcePost_found app ver baseDir ext dl vmap true keep true targetExists extractOk
      moveOk members h]
    refine ⟨(extractPhase (version_dir_path baseDir app ver)
      (source_archive_name baseDir app ver ext) keep targetExists extractOk moveOk members).2, ?_⟩
    simp [fetchEffects]
  · intro hc u
    subst hc
    rw [getSourcePost_found app ver baseDir ext dl vmap false keep true targetExists extractOk
      moveOk members h]
    have hf : fetchEffects (source_archive_name baseDir app ver ext) (MY_ATLASSIAN ++ dl)
        false true = [] := rfl
    rw [hf]
    intro hmem
    simp only [List.nil_append, List.mem_cons, List.mem_append, List.mem_singleton,
      reduceCtorEq, false_or] at hmem
    rcases hmem with h1 | h1
    · exact absurd h1 (List.not_mem_nil _)
    · exact download_not_mem_extractPhase _ _ _ _ _ _ _ _ h1

/-- Witness for getSourceCleanPolicy: the clean run deletes and downloads,
the unclean run with a cached archive never downloads. -/
theorem getSourceCleanPolicy_witness :
    (∃ rest,
      (getSourcePost appJira ver621 baseDirS tarGzS vmap1 true true true false true true
          membersOneTop).2 =
        Effect.makedirsBase baseDirS ::
          Effect.unlinkArchive (source_archive_name baseDirS appJira ver621 tarGzS) ::
          Effect.download (MY_ATLASSIAN ++ dlPath) ::
          Effect.writeArchive (source_archive_name baseDirS appJira ver621 tarGzS) :: rest) ∧
    (∀ u, Effect.download u ∉
      (getSourcePost appJira ver621 baseDirS tarGzS vmap1 false true true false true true
        membersOneTop).2) := by
  constructor
  · exact (getSourceCleanPolicy appJira ver621 baseDirS tarGzS dlPath vmap1 true true false true
      true membersOneTop (by decide)).1 rfl
  · exact (getSourceCleanPolicy appJira ver621 baseDirS tarGzS dlPath vmap1 false true false true
      true membersOneTop (by decide)).2 rfl

/-- C4: when the requested version resolves and the archive has two or
more distinct top level segments, get_source fails with the unexpected
contents error before any move and even before the temporary extraction
directory is created; moreover, on every input whatsoever, the effect
trace creates the temporary extraction directory exactly when it also
removes it, which is the guaranteed cleanup of the try finally block. -/
theorem getSourceStructuralFailure (app ver baseDir ext : String) (vmap : List (String × String))
    (clean keep archiveExists targetExists extractOk moveOk : Bool) (members : List String) :
    ((∃ dl, dictFind vmap ver = some dl) →
      2 ≤ (distinctList (members.map topSegment)).length →
      (getSourcePost app ver baseDir ext vmap clean keep archiveExists targetExists extractOk
          moveOk members).1 = GSResult.unexpectedContents ∧
      (∀ d, Effect.moveDir d ∉
        (getSourcePost app ver baseDir ext vmap clean keep archiveExists targetExists extractOk
          moveOk members).2) ∧
      Effect.mkdtempDir ∉
        (getSourcePost app ver baseDir ext vmap clean keep archiveExists targetExists extractOk
          moveOk members).2) ∧
    (Effect.mkdtempDir ∈
        (getSourcePost app ver baseDir ext vmap clean keep archiveExists targetExists extractOk
          moveOk members).2 ↔
      Effect.rmtreeTempDir ∈
        (getSourcePost app ver baseDir ext vmap clean keep archiveExists targetExists extractOk
          moveOk members).2) := by
  constructor
  · rintro ⟨dl, h⟩ hlen
    have hne : (distinctList (members.map topSegment)).length ≠ 1 := by omega
    have hext := extractPhase_structural (version_dir_path baseDir app ver)
      (source_archive_name baseDir app ver ext) keep targetExists extractOk moveOk members hne
    rw [getSourcePost_found app ver baseDir ext dl vmap clean keep archiveExists targetExists
      extractOk moveOk members h, hext]
    refine ⟨rfl, ?_, ?_⟩
    · intro d
      have hf := not_mem_fetchEffects_of (source_archive_name baseDir app ver ext)
        (MY_ATLASSIAN ++ dl) clean archiveExists (Effect.moveDir d) (by simp) (by simp) (by simp)
      simp [List.mem_cons, List.mem_append, hf]
    · have hf := not_mem_fetchEffects_of (source_archive_name baseDir app ver ext)
        (MY_ATLASSIAN ++ dl) clean archiveExists Effect.mkdtempDir (by simp) (by simp) (by simp)
      simp [List.mem_cons, List.mem_append, hf]
  · cases hf : dictFind vmap ver with
    | none =>
      rw [getSourcePost_notFound app ver baseDir ext vmap clean keep archiveExists targetExists
        extractOk moveOk members hf]
      simp
    | some dl =>
      rw [getSourcePost_found app ver baseDir ext dl vmap clean keep archiveExists targetExists
        extractOk moveOk members hf]
      have hf1 := not_mem_fetchEffects_of (source_archive_name baseDir app ver ext)
        (MY_ATLASSIAN ++ dl) clean archiveExists Effect.mkdtempDir (by simp) (by simp) (by simp)
      have hf2 := not_mem_fetchEffects_of (source_archive_name baseDir app ver ext)
        (MY_ATLASSIAN ++ dl) clean archiveExists Effect.rmtreeTempDir (by simp) (by simp) (by simp)
      simp [List.mem_cons, List.mem_append, hf1, hf2,
        mkdtemp_iff_rmtree_extractPhase (version_dir_path baseDir app ver)
          (source_archive_name baseDir app ver ext) keep targetExists extractOk moveOk members]

/-- Witness for getSourceStructuralFailure on an archive with two distinct
top level directories. -/
theorem getSourceStructuralFailure_witness :
    (getSourcePost appJira ver621 baseDirS tarGzS vmap1 true true true false true true
        membersTwoTops).1 = GSResult.unexpectedContents ∧
    Effect.mkdtempDir ∉
      (getSourcePost appJira ver621 baseDirS tarGzS vmap1 true true true false true true
        membersTwoTops).2 := by
  have h := (getSourceStructuralFailure appJira ver621 baseDirS tarGzS vmap1 true true true false
    true true membersTwoTops).1 ⟨dlPath, by decide⟩ (by decide)
  exact ⟨h.1, h.2.2⟩

/-- C10: get_source creates the target extraction directory with makedirs
before validating the top level structure of the archive, so every run
that fails with the unexpected contents error has performed the makedirs
effect on the target directory and never removes that directory on this
error path: the filesystem is not left unchanged. -/
theorem getSourceTargetDirOnStructureError (app ver baseDir ext : String)
    (vmap : List (String × String))
    (clean keep archiveExists targetExists extractOk moveOk : Bool) (members : List String)
    (h : (getSourcePost app ver baseDir ext vmap clean keep archiveExists targetExists extractOk
        moveOk members).1 = GSResult.unexpectedContents) :
    Effect.makedirsTarget (version_dir_path baseDir app ver) ∈
      (getSourcePost app ver baseDir ext vmap clean keep archiveExists targetExists extractOk
        moveOk members).2 ∧
    Effect.rmtreeTarget (version_dir_path baseDir app ver) ∉
      (getSourcePost app ver baseDir ext vmap clean keep archiveExists targetExists extractOk
        moveOk members).2 := by
  cases hf : dictFind vmap ver with
  | none =>
    rw [getSourcePost_notFound app ver baseDir ext vmap clean keep archiveExists targetExists
      extractOk moveOk members hf] at h
    exact absurd h (by simp)
  | some dl =>
    by_cases hlen : (distinctList (members.map topSegment)).length = 1
    · exfalso
      rw [getSourcePost_found app ver baseDir ext dl vmap clean keep archiveExists targetExists
        extractOk moveOk members hf] at h
      exact extractPhase_res_of_oneTop _ _ _ _ _ _ _ hlen h
    · have hext := extractPhase_structural (version_dir_path baseDir app ver)
        (source_archive_name baseDir app ver ext) keep targetExists extractOk moveOk members hlen
      rw [getSourcePost_found app ver baseDir ext dl vmap clean keep archiveExists targetExists
        extractOk moveOk members hf, hext]
      constructor
      · simp
      · have hf2 := not_mem_fetchEffects_of (source_archive_name baseDir app ver ext)
          (MY_ATLASSIAN ++ dl) clean archiveExists
          (Effect.rmtreeTarget (version_dir_path baseDir app ver)) (by simp) (by simp) (by simp)
        simp [List.mem_cons, List.mem_append, hf2]

/-- Witness for getSourceTargetDirOnStructureError at the two top level
directory fixture. -/
theorem getSourceTargetDirOnStructureError_witness :
    Effect.makedirsTarget (version_dir_path baseDirS appJira ver621) ∈
      (getSourcePost appJira ver621 baseDirS tarGzS vmap1 true true true false true true
        membersTwoTops).2 ∧
    Effect.rmtreeTarget (version_dir_path baseDirS appJira ver621) ∉
      (getSourcePost appJira ver621 baseDirS tarGzS vmap1 true true true false true true
        membersTwoTops).2 :=
  getSourceTargetDirOnStructureError appJira ver621 baseDirS tarGzS vmap1 true true true false
    true true membersTwoTops (by decide)

/-- C1 (amended): rows whose defects the loop detects with its own checks
(first cell not having exactly one child node, empty stripped version
text, unmatched pattern, mismatched archive type, first anchor of the last
cell not having exactly one child node, empty stripped href) raise
AtlassianSourceDownloadError, are excluded from the mapping and the scan
continues with the remaining rows; but the exclusion without aborting does
not extend to rows with no td columns, with no anchor in the last cell, or
with an anchor lacking an href attribute, whose IndexError, TypeError or
AttributeError escapes the narrow except clause and aborts the scan. -/
theorem scanSkipBehavior (ext : String) (acc : List (String × String)) :
    (∀ rows : List Row, (∀ r ∈ rows, processRow ext r ≠ RowOutcome.uncaught) →
      (scanVersionRows ext rows acc).isSome = true) ∧
    (∀ (r : Row) (rs : List Row), processRow ext r = RowOutcome.skip →
      scanVersionRows ext (r :: rs) acc = scanVersionRows ext rs acc) := by
  constructor
  · intro rows h
    obtain ⟨m, hm⟩ := scan_isSome ext rows acc h
    simp [hm]
  · intro r rs h
    simp [scanVersionRows, h]

/-- Witness for scanSkipBehavior: a zip row under the tar.gz resolved
extension is skipped and the scan goes on. -/
theorem scanSkipBehavior_witness :
    (scanVersionRows tarGzS [mismatchRow] []).isSome = true ∧
    scanVersionRows tarGzS (mismatchRow :: [okZipRow]) [] =
      scanVersionRows tarGzS [okZipRow] [] := by
  constructor
  · exact (scanSkipBehavior tarGzS []).1 [mismatchRow] (by decide)
  · exact (scanSkipBehavior tarGzS []).2 mismatchRow [okZipRow] (by decide)

/-- C1 counterexample: a row with well formed matching version text but no
anchor at all in its last cell is one of the rows the claim says must be
excluded with the scan continuing; instead find returns None, len applied
to None raises TypeError, the exception is not an
AtlassianSourceDownloadError, and the whole scan aborts, so even the later
perfectly valid row yields no mapping at all. -/
theorem scanAbortsOnMissingLink :
    processRow zipS noLinkRow = RowOutcome.uncaught ∧
    scanVersionRows zipS [noLinkRow, okZipRow] [] = none := by
  constructor
  · decide
  · decide

/-- C2 (amended): a row that passes every check of the loop body (first
cell with exactly one child node whose stripped text matches the pattern
with the resolved extension, first anchor of the last cell with exactly
one child node and a non empty stripped href) contributes its version
mapped to its stripped href; when furthermore no row of the listing
triggers an uncaught exception and no later row yields an entry for the
same version, the final mapping maps that version to that path, and the
mapping keys are free of duplicates, one entry per distinct version. -/
theorem scanValidRowMapped (ext v p : String) (l1 l2 : List Row) (r : Row)
    (acc : List (String × String))
    (hacc : (dictKeys acc).Nodup)
    (hr : processRow ext r = RowOutcome.entry v p)
    (hnu : ∀ x ∈ l1 ++ r :: l2, processRow ext x ≠ RowOutcome.uncaught)
    (hlast : ∀ x ∈ l2, ∀ q, processRow ext x ≠ RowOutcome.entry v q) :
    ∃ m, scanVersionRows ext (l1 ++ r :: l2) acc = some m ∧ dictFind m v = some p ∧
      (dictKeys m).Nodup := by
  obtain ⟨m1, hm1⟩ := scan_isSome ext l1 acc (fun x hx => hnu x (List.mem_append_left _ hx))
  have happ := scan_append ext l1 (r :: l2) acc m1 hm1
  obtain ⟨m2, hm2, hfind⟩ := scan_preserve_key ext v l2 (dictInsert m1 v p)
    (fun x hx => hnu x (by simp [hx])) (fun x hx => hlast x hx)
  refine ⟨m2, ?_, ?_, ?_⟩
  · rw [happ]
    simpa [scanVersionRows, hr] using hm2
  · rw [hfind]
    exact dictFind_dictInsert_self m1 v p
  · have hn1 : (dictKeys m1).Nodup := scan_nodup ext l1 acc m1 hm1 hacc
    exact scan_nodup ext l2 (dictInsert m1 v p) m2 hm2 (nodup_dictKeys_dictInsert m1 v p hn1)

/-- Witness for scanValidRowMapped: a single valid tar row produces its
mapping entry. -/
theorem scanValidRowMapped_witness :
    ∃ m, scanVersionRows tarGzS ([] ++ tarRow :: []) [] = some m ∧
      dictFind m ("6.2.1") = some ("/download/source/22") ∧ (dictKeys m).Nodup :=
  scanValidRowMapped tarGzS ("6.2.1") ("/download/source/22") [] [] tarRow []
    (by decide) (by decide) (by decide) (fun x hx => absurd hx (List.not_mem_nil x))

/-- C2 counterexample: styledAnchorRow satisfies every premise of the
claim, well formed matching version text with the zip type equal to the
resolved type and a last cell containing exactly one anchor with a non
empty href, yet its anchor tag has two direct child nodes, so the len
check raises the download error and the row is skipped: its version 6.2.1
does not appear as a key of the resulting mapping. -/
theorem scanSkipsStyledAnchor :
    matchVersionRegex ("6.2.1 Source (ZIP)") = some ⟨"6.2.1", "ZIP"⟩ ∧
    pyLower ("ZIP") = zipS ∧
    (styledAnchorRow.tds.getLast?.map (fun td => td.anchors.length)) = some 1 ∧
    (styledAnchorRow.tds.getLast?.bind (fun td => td.anchors.head?.bind Anchor.href)) =
      some ("/download/source/12345") ∧
    processRow zipS styledAnchorRow = RowOutcome.skip ∧
    scanVersionRows zipS [styledAnchorRow] [] = some [] := by
  refine ⟨by decide, by decide, by decide, by decide, by decide, by decide⟩

/-- C9 counterexample: the version text with the patch component omitted,
6.2 followed by a valid Source suffix, does not match
VERSION_EXTRACT_REGEX, and a row carrying it together with a perfect
download link is skipped instead of becoming eligible for the mapping. -/
theorem versionRegexRejectsTwoComponents :
    matchVersionRegex twoCompText = none ∧
    processRow zipS twoCompRow = RowOutcome.skip ∧
    scanVersionRows zipS [twoCompRow] [] = some [] := by
  refine ⟨by decide, by decide, by decide⟩

/-- C9 (amended): in VERSION_EXTRACT_REGEX only the patch digits are
optional, not the second dot: for all nonempty digit runs a and b, the
two component form a.b followed by a space and any tail (so in particular
by any valid Source suffix) never matches, while the dotted form a.b.
followed by the Source (ZIP) suffix matches, with the trailing dot kept
inside the version group. -/
theorem versionRegexPatchDigitsOptional (a b tail : List Char)
    (hna : a ≠ []) (hnb : b ≠ []) (hda : ∀ c ∈ a, c.isDigit = true)
    (hdb : ∀ c ∈ b, c.isDigit = true) :
    matchVersionRegex (String.mk (a ++ '.' :: (b ++ ' ' :: tail))) = none ∧
    matchVersionRegex
        (String.mk (a ++ '.' :: (b ++ '.' :: (sourceOpen ++ (zipLit ++ closeParen))))) =
      some ⟨String.mk (a ++ '.' :: b ++ '.' :: []), String.mk zipLit⟩ := by
  constructor
  · have hdata : (String.mk (a ++ '.' :: (b ++ ' ' :: tail))).data =
        a ++ '.' :: (b ++ ' ' :: tail) := rfl
    unfold matchVersionRegex
    rw [hdata, parseNumDot_dot a (b ++ ' ' :: tail) hda hna]
    dsimp only
    rw [parseNumDot_nodot b ' ' tail hdb (by decide) (by decide)]
  · have hdata : (String.mk (a ++ '.' :: (b ++ '.' :: (sourceOpen ++ (zipLit ++ closeParen))))).data =
        a ++ '.' :: (b ++ '.' :: (sourceOpen ++ (zipLit ++ closeParen))) := rfl
    unfold matchVersionRegex
    rw [hdata, parseNumDot_dot a (b ++ '.' :: (sourceOpen ++ (zipLit ++ closeParen))) hda hna]
    dsimp only
    rw [parseNumDot_dot b (sourceOpen ++ (zipLit ++ closeParen)) hdb hnb]
    rfl

/-- Witness for versionRegexPatchDigitsOptional at the digits 6 and 2. -/
theorem versionRegexPatchDigitsOptional_witness :
    matchVersionRegex (String.mk (['6'] ++ '.' :: (['2'] ++ ' ' :: tailZip))) = none ∧
    matchVersionRegex
        (String.mk (['6'] ++ '.' :: (['2'] ++ '.' :: (sourceOpen ++ (zipLit ++ closeParen))))) =
      some ⟨String.mk (['6'] ++ '.' :: ['2'] ++ '.' :: []), String.mk zipLit⟩ :=
  versionRegexPatchDigitsOptional ['6'] ['2'] tailZip (by decide) (by decide)
    (by decide) (by decide)

/-- C7 counterexample: with deployment enabled, candidate src/maven2 (the
first one tried, being newest in the descending order) builds with exit
code zero and its deployment exits nonzero, yet the run completes
successfully: the exception raised for the failed deployment is caught by
the loop, which falls through to src/maven1, and that candidate builds and
deploys fine, so the run is not fatal. -/
theorem deployFailureNotRunFatal :
    (deploy1FailOutcome ("src/maven2")).buildExit = 0 ∧
    (deploy1FailOutcome ("src/maven2")).deployExit ≠ 0 ∧
    ("src/maven2") ∈ mavenCandidates srcS entriesW ∧
    (runBuildPhase deploy1FailOutcome false srcS entriesW).1 = RunResult.complete := by
  refine ⟨by decide, by decide, by decide, by decide⟩

/-- C7 (amended): with deployment enabled, a candidate whose build
succeeds but whose deployment invocation exits nonzero fails its own
attempt (the raised exception is caught and the loop moves to the next
candidate), and the run terminates fatally exactly when every candidate
attempt fails; in particular the run is fatal when every candidate that
builds successfully fails deployment, but not when some later candidate
builds and deploys successfully. -/
theorem deployFailureFailsAttempt (outcome : String → BuildAttempt) (src_dir : String)
    (entries : List String) :
    (∀ a : BuildAttempt, a.buildExit = 0 → a.deployExit ≠ 0 →
      attemptSucceeds false a = false) ∧
    ((runBuildPhase outcome false src_dir entries).1 = RunResult.fatal ↔
      ∀ d ∈ mavenCandidates src_dir entries, attemptSucceeds false (outcome d) = false) := by
  constructor
  · intro a h1 h2
    cases hb : a.raisesBefore <;> simp [attemptSucceeds, hb, h1, h2]
  · have hkey : (runBuildPhase outcome false src_dir entries).1 = RunResult.fatal ↔
        (mavenCandidates src_dir entries).any
          (fun d => attemptSucceeds false (outcome d)) = false := by
      unfold runBuildPhase
      rw [driveBuilds_eq]
      cases h : (mavenCandidates src_dir entries).any
          (fun d => attemptSucceeds false (outcome d)) <;> simp [h]
    rw [hkey]
    constructor
    · intro hany d hd
      cases hx : attemptSucceeds false (outcome d) with
      | false => rfl
      | true =>
        have h2 : (mavenCandidates src_dir entries).any
            (fun x => attemptSucceeds false (outcome x)) = true :=
          List.any_eq_true.mpr ⟨d, hd, hx⟩
        rw [hany] at h2
        exact Bool.noConfusion h2
    · intro hall
      cases h : (mavenCandidates src_dir entries).any
          (fun d => attemptSucceeds false (outcome d)) with
      | false => rfl
      | true =>
        obtain ⟨d, hd, hs⟩ := List.any_eq_true.mp h
        rw [hall d hd] at hs
        exact Bool.noConfusion hs

/-- Witness for deployFailureFailsAttempt: a build that succeeds with a
failing deployment loses its attempt, and when every candidate behaves
that way the run is fatal. -/
theorem deployFailureFailsAttempt_witness :
    attemptSucceeds false ⟨false, 0, 1⟩ = false ∧
    (runBuildPhase deployAllFailOutcome false srcS entriesW).1 = RunResult.fatal := by
  constructor
  · exact (deployFailureFailsAttempt deployAllFailOutcome srcS entriesW).1 ⟨false, 0, 1⟩ rfl
      (by decide)
  · exact (deployFailureFailsAttempt deployAllFailOutcome srcS entriesW).2.mpr (by decide)

/-- C8: the candidate list is exactly the maven prefixed children of the
extraction directory (a permutation of maven_dirs) in descending name
order; the attempted candidates are every leading failure followed by at
most one success, so a failed attempt falls through to the next candidate
and the first success stops the iteration; and the run raises the fatal
RuntimeError if and only if every candidate fails. -/
theorem buildDriverSpec (outcome : String → BuildAttempt) (no_deploy : Bool)
    (src_dir : String) (entries : List String) :
    (mavenCandidates src_dir entries).Perm (maven_dirs src_dir entries) ∧
    List.Sorted (fun a b => pyLe b a) (mavenCandidates src_dir entries) ∧
    (runBuildPhase outcome no_deploy src_dir entries).2 =
      (mavenCandidates src_dir entries).takeWhile
        (fun d => !attemptSucceeds no_deploy (outcome d)) ++
      ((mavenCandidates src_dir entries).dropWhile
        (fun d => !attemptSucceeds no_deploy (outcome d))).take 1 ∧
    ((runBuildPhase outcome no_deploy src_dir entries).1 = RunResult.fatal ↔
      ∀ d ∈ mavenCandidates src_dir entries, attemptSucceeds no_deploy (outcome d) = false) := by
  refine ⟨?_, ?_, ?_, ?_⟩
  · exact (List.reverse_perm _).trans (List.perm_insertionSort pyLe _)
  · have hs := List.sorted_insertionSort pyLe (maven_dirs src_dir entries)
    exact List.pairwise_reverse.mpr hs
  · unfold runBuildPhase
    rw [driveBuilds_eq]
  · have hkey : (runBuildPhase outcome no_deploy src_dir entries).1 = RunResult.fatal ↔
        (mavenCandidates src_dir entries).any
          (fun d => attemptSucceeds no_deploy (outcome d)) = false := by
      unfold runBuildPhase
      rw [driveBuilds_eq]
      cases h : (mavenCandidates src_dir entries).any
          (fun d => attemptSucceeds no_deploy (outcome d)) <;> simp [h]
    rw [hkey]
    constructor
    · intro hany d hd
      cases hx : attemptSucceeds no_deploy (outcome d) with
      | false => rfl
      | true =>
        have h2 : (mavenCandidates src_dir entries).any
            (fun x => attemptSucceeds no_deploy (outcome x)) = true :=
          List.any_eq_true.mpr ⟨d, hd, hx⟩
        rw [hany] at h2
        exact Bool.noConfusion h2
    · intro hall
      cases h : (mavenCandidates src_dir entries).any
          (fun d => attemptSucceeds no_deploy (outcome d)) with
      | false => rfl
      | true =>
        obtain ⟨d, hd, hs⟩ := List.any_eq_true.mp h
        rw [hall d hd] at hs
        exact Bool.noConfusion hs

/-- Witness for buildDriverSpec: with every candidate failing to build,
the run is fatal. -/
theorem buildDriverSpec_witness :
    (runBuildPhase buildAllFailOutcome false srcS entriesW).1 = RunResult.fatal :=
  (buildDriverSpec buildAllFailOutcome false srcS entriesW).2.2.2.mpr (by decide)
